import Mathlib

/-!
Verification of the k-means single-pass clustering program (`kmeans.py`).

The program reads country rows `(name, birthrate, life_expectancy)` from a CSV
file, picks `k` random seed points, assigns every data point to the seed of
minimum Euclidean distance (first minimal index on ties), and reports per
cluster the member countries and the coordinate means rounded to two decimals.

Modelling conventions:
* Python floats are modelled by `ℚ` (exact arithmetic); the square root in
  `euclidean_distance` is kept over `ℝ` for fidelity, and the computable
  assignment works on squared distances.  Since `Real.sqrt` is strictly
  monotone on nonnegative arguments, the first index of the minimal squared
  distance coincides with the first index of the minimal `sqrt` distance;
  this is proved below (`distancesR`-statements), not assumed.
* `random.sample(datapoints, k)` is nondeterministic, so the chosen sample is
  passed as an explicit argument `samples`; its defining properties
  (length `k`, drawn from the dataset) appear as hypotheses.  `random.sample`
  raises `ValueError` when `k` exceeds the population size; `np.amin` raises
  `ValueError` on an empty sequence; `float(...)` raises `ValueError` on a
  malformed string; a missing CSV field raises `IndexError`.  These uncaught
  Python exceptions are modelled by the `PyErr` error type in the
  `Except`-valued variants of the functions.
* `np.mean` of an empty sequence yields NaN (with only a warning); this is
  modelled by `none` in `np_mean`.
-/

namespace KMeans

/-- A data point `(birthrate, life_expectancy)`; Python float pairs are
modelled with exact rationals. -/
abbrev Point : Type := ℚ × ℚ

/-- Uncaught Python exceptions reachable in the program:
`sampleValueError` — `ValueError` from `random.sample` when the sample size
exceeds the population; `eminValueError` — `ValueError` from `np.amin` on an
empty sequence; `floatValueError` — `ValueError` from `float(...)` on a
malformed field; `rowIndexError` — `IndexError` from indexing a too-short row. -/
inductive PyErr : Type where
  | sampleValueError : PyErr
  | eminValueError : PyErr
  | floatValueError : PyErr
  | rowIndexError : PyErr
deriving DecidableEq

/-- The squared Euclidean expression `(x2 - x1) ** 2 + (y2 - y1) ** 2`
built by `euclidean_distance` before `np.sqrt` is applied
(`kmeans.py`, line 70). -/
def euclidean_sq (x1 x2 y1 y2 : ℚ) : ℚ :=
  (x2 - x1) ^ 2 + (y2 - y1) ^ 2

/-- `euclidean_distance` (`kmeans.py`, lines 59-75): the square root of
`euclidean_sq`, over `ℝ` since `Real.sqrt` is not computable. -/
noncomputable def euclidean_distance (x1 x2 y1 y2 : ℝ) : ℝ :=
  Real.sqrt ((x2 - x1) ^ 2 + (y2 - y1) ^ 2)

/-- The list of squared distances from `datapoint` to each centroid, in
centroid order (the loop of `closest_centroid`, lines 88-98, without the
final `np.sqrt`). -/
def distances_sq (centroids : List Point) (datapoint : Point) : List ℚ :=
  centroids.map fun point => euclidean_sq point.1 datapoint.1 point.2 datapoint.2

/-- The list of real distances from `datapoint` to each centroid exactly as
the source computes them, square root included. -/
noncomputable def distancesR (centroids : List Point) (datapoint : Point) : List ℝ :=
  centroids.map fun point =>
    euclidean_distance (point.1 : ℝ) (datapoint.1 : ℝ) (point.2 : ℝ) (datapoint.2 : ℝ)

/-- `closest_centroid` (`kmeans.py`, lines 79-107): take the minimum of the
distance list (`np.amin`) and return the first index holding it
(`np.where(distances == min_distance)[0][0]`).  An empty centroid list makes
`np.amin` raise `ValueError`. -/
def closest_centroidE (centroids : List Point) (datapoint : Point) : Except PyErr ℕ :=
  match (distances_sq centroids datapoint).min? with
  | some min_distance => .ok ((distances_sq centroids datapoint).indexOf min_distance)
  | none => .error .eminValueError

/-- The index returned by `closest_centroid` on the non-exceptional path
(`0` is an arbitrary junk value for the empty-centroid error case, which the
program never defines a value for). -/
def closest_centroid (centroids : List Point) (datapoint : Point) : ℕ :=
  match closest_centroidE centroids datapoint with
  | .ok i => i
  | .error _ => 0

/-- One iteration of the assignment loop of `init_centroids` (line 128):
`centroids[closest_centroid(samples, point)].append(point)`. -/
def assign_step (samples : List Point) (acc : List (List Point)) (point : Point) :
    List (List Point) :=
  acc.set (closest_centroid samples point)
    (acc.getD (closest_centroid samples point) [] ++ [point])

/-- `init_centroids` (`kmeans.py`, lines 111-131) with the random sample made
explicit: start from `number_clusters` empty clusters (`[[] for cp in samples]`)
and append every datapoint to the cluster of its closest seed. -/
def init_centroids (samples datapoints : List Point) : List (List Point) :=
  datapoints.foldl (assign_step samples) (samples.map fun _ => [])

/-- `init_centroids` with the Python exceptions modelled: `random.sample`
raises `ValueError` when `number_clusters` exceeds the dataset size
(line 121); afterwards each `closest_centroid` call can raise on an empty
sample list.  `samples` stands for the value `random.sample` would return
(length `number_clusters`, drawn without replacement from `datapoints`). -/
def init_centroidsE (datapoints : List Point) (number_clusters : ℕ)
    (samples : List Point) : Except PyErr (List (List Point)) :=
  if datapoints.length < number_clusters then .error .sampleValueError
  else
    datapoints.foldlM
      (fun acc point => do
        let i ← closest_centroidE samples point
        pure (acc.set i (acc.getD i [] ++ [point])))
      (samples.map fun _ => [])

/-- `np.mean` of a list: the arithmetic mean; `none` models the NaN that
numpy produces (with a runtime warning, not an exception) on empty input. -/
def np_mean (l : List ℚ) : Option ℚ :=
  if l.length = 0 then none else some (l.sum / l.length)

/-- `mean_data` (`kmeans.py`, lines 187-208), the computed cluster summary:
the pair of `np.mean` of the x-coordinates and of the y-coordinates.
`none` models the NaN pair printed for an empty cluster. -/
def mean_data (cluster : List Point) : Option (ℚ × ℚ) :=
  match np_mean (cluster.map Prod.fst), np_mean (cluster.map Prod.snd) with
  | some average_birthrate, some average_life_expectancy =>
      some (average_birthrate, average_life_expectancy)
  | _, _ => none

/-- Round to the nearest integer, ties to even — the rounding mode of
`np.round`. -/
def round_half_even (q : ℚ) : ℤ :=
  if q - ⌊q⌋ < 1 / 2 then ⌊q⌋
  else if 1 / 2 < q - ⌊q⌋ then ⌊q⌋ + 1
  else if Even ⌊q⌋ then ⌊q⌋ else ⌊q⌋ + 1

/-- `np.round(x, decimals=2)`: round to two decimal digits, ties to even. -/
def np_round2 (q : ℚ) : ℚ :=
  (round_half_even (q * 100) : ℚ) / 100

/-- The two values `mean_data` prints (lines 206-207): the means rounded to
two decimals. -/
def mean_data_report (cluster : List Point) : Option (ℚ × ℚ) :=
  (mean_data cluster).map fun ab => (np_round2 ab.1, np_round2 ab.2)

/-- `data_dict[country] = value`: Python dict assignment keeps the first
insertion position of an existing key and overwrites its value, otherwise
appends at the end. -/
def dict_insert (d : List (String × Point)) (country : String) (value : Point) :
    List (String × Point) :=
  if d.any fun kv => kv.1 == country then
    d.map fun kv => if kv.1 == country then (country, value) else kv
  else d ++ [(country, value)]

/-- The row loop of `read_csv` (`kmeans.py`, lines 44-49) over already-split
CSV rows.  A row is `(name, fields)` where a field is `some q` for text that
parses as a float and `none` for malformed text; a missing field (too-short
row) is an absent list entry.  `row[1]`/`row[2]` lookups raise `IndexError`
when missing and `float(...)` raises `ValueError` when malformed; neither is
caught (only `FileNotFoundError` is), so the exception aborts the whole call
and the dictionary built so far is lost. -/
def read_rows_from (acc : List (String × Point)) :
    List (String × List (Option ℚ)) → Except PyErr (List (String × Point))
  | [] => .ok acc
  | (country, fields) :: rest =>
    match fields.get? 0 with
    | none => .error .rowIndexError
    | some none => .error .floatValueError
    | some (some birthrate) =>
      match fields.get? 1 with
      | none => .error .rowIndexError
      | some none => .error .floatValueError
      | some (some life_expectancy) =>
          read_rows_from (dict_insert acc country (birthrate, life_expectancy)) rest

/-- `read_csv` (`kmeans.py`, lines 28-55) restricted to the parsing loop:
builds the country → point dictionary, propagating the uncaught parse
exceptions. -/
def read_csv (rows : List (String × List (Option ℚ))) :
    Except PyErr (List (String × Point)) :=
  read_rows_from [] rows

/-- `get_country` (`kmeans.py`, lines 165-183): the countries whose point
occurs in the cluster, in dictionary iteration order, together with the
printed count `len(country_list)`. -/
def get_country (cluster : List Point) (data : List (String × Point)) :
    List String × ℕ :=
  ((data.filter fun kv => cluster.contains kv.2).map Prod.fst,
    ((data.filter fun kv => cluster.contains kv.2).map Prod.fst).length)

/-! ### Basic facts about the distance computation -/

lemma euclidean_sq_nonneg (x1 x2 y1 y2 : ℚ) : 0 ≤ euclidean_sq x1 x2 y1 y2 :=
  add_nonneg (sq_nonneg _) (sq_nonneg _)

lemma euclidean_sq_eq_zero_iff (x1 x2 y1 y2 : ℚ) :
    euclidean_sq x1 x2 y1 y2 = 0 ↔ x1 = x2 ∧ y1 = y2 := by
  unfold euclidean_sq
  rw [add_eq_zero_iff_of_nonneg (sq_nonneg _) (sq_nonneg _), sq_eq_zero_iff, sq_eq_zero_iff,
    sub_eq_zero, sub_eq_zero]
  exact and_congr ⟨fun h => h.symm, fun h => h.symm⟩ ⟨fun h => h.symm, fun h => h.symm⟩

lemma length_distances_sq (centroids : List Point) (p : Point) :
    (distances_sq centroids p).length = centroids.length :=
  List.length_map _ _

lemma distances_sq_nonneg (centroids : List Point) (p : Point) :
    ∀ b ∈ distances_sq centroids p, 0 ≤ b := by
  intro b hb
  obtain ⟨c, -, rfl⟩ := List.mem_map.mp hb
  exact euclidean_sq_nonneg _ _ _ _

lemma distancesR_eq_map (centroids : List Point) (p : Point) :
    distancesR centroids p
      = (distances_sq centroids p).map fun q : ℚ => Real.sqrt ((q : ℝ)) := by
  simp only [distancesR, distances_sq, List.map_map]
  refine List.map_congr_left fun c _ => ?_
  simp only [Function.comp_apply, euclidean_distance, euclidean_sq]
  push_cast
  ring_nf

lemma minQ_eq_some_iff {l : List ℚ} {a : ℚ} :
    l.min? = some a ↔ a ∈ l ∧ ∀ b ∈ l, a ≤ b := by
  haveI : Std.Antisymm ((· : ℚ) ≤ ·) := ⟨fun h1 h2 => le_antisymm h1 h2⟩
  exact List.min?_eq_some_iff (fun a => le_refl a) (fun a b => min_choice a b)
    (fun a b c => le_min_iff)

lemma get_ne_of_lt_indexOf {α : Type*} [DecidableEq α] :
    ∀ (l : List α) (a : α) (j : ℕ) (hj : j < l.length), j < l.indexOf a → l.get ⟨j, hj⟩ ≠ a
  | b :: l, a, j, hj, hlt => by
    by_cases hba : b = a
    · rw [List.indexOf_cons_eq _ hba] at hlt
      exact absurd hlt (Nat.not_lt_zero _)
    · rw [List.indexOf_cons_ne _ hba] at hlt
      cases j with
      | zero => simpa using hba
      | succ j =>
          exact get_ne_of_lt_indexOf l a j (Nat.lt_of_succ_lt_succ hj)
            (Nat.lt_of_succ_lt_succ hlt)

/-- On a non-empty centroid list, `closest_centroid` is the first index of the
minimal squared distance: the characterization used by every claim below. -/
lemma closest_centroid_spec (centroids : List Point) (p : Point) (h : centroids ≠ []) :
    ∃ m : ℚ, (distances_sq centroids p).min? = some m ∧
      closest_centroid centroids p = (distances_sq centroids p).indexOf m ∧
      m ∈ distances_sq centroids p ∧
      ∀ b ∈ distances_sq centroids p, m ≤ b := by
  have hne : distances_sq centroids p ≠ [] := by
    simpa [distances_sq] using h
  have hex : ∃ m, (distances_sq centroids p).min? = some m := by
    cases hq : (distances_sq centroids p).min? with
    | none => exact absurd (List.min?_eq_none_iff.mp hq) hne
    | some m => exact ⟨m, rfl⟩
  obtain ⟨m, hm⟩ := hex
  obtain ⟨hmem, hle⟩ := minQ_eq_some_iff.mp hm
  exact ⟨m, hm, by simp [closest_centroid, closest_centroidE, hm], hmem, hle⟩

lemma closest_centroid_lt_length (centroids : List Point) (p : Point) (h : centroids ≠ []) :
    closest_centroid centroids p < centroids.length := by
  obtain ⟨m, -, hcc, hmem, -⟩ := closest_centroid_spec centroids p h
  have := List.indexOf_lt_length.mpr hmem
  rw [length_distances_sq] at this
  exact hcc ▸ this

/-! ### The claims about `closest_centroid` -/

/-- C9: on a non-empty centroid list `closest_centroid` succeeds and returns
an index within `[0, centroids.length)`, so the indexed append in
`init_centroids` is in bounds; on the empty list the minimum-of-distances
computation has no result and the `ValueError` branch is taken. -/
theorem closest_centroid_in_bounds (centroids : List Point) (p : Point) (h : centroids ≠ []) :
    closest_centroidE centroids p = .ok (closest_centroid centroids p) ∧
    closest_centroid centroids p < centroids.length ∧
    ∀ q : Point, closest_centroidE [] q = .error .eminValueError := by
  obtain ⟨m, hm, -, -, -⟩ := closest_centroid_spec centroids p h
  exact ⟨by simp [closest_centroidE, closest_centroid, hm],
    closest_centroid_lt_length centroids p h, fun q => rfl⟩

theorem closest_centroid_in_bounds_witness :
    ([((0 : ℚ), (0 : ℚ))] : List Point) ≠ [] ∧
    (closest_centroidE [((0 : ℚ), (0 : ℚ))] ((1 : ℚ), (1 : ℚ))
        = .ok (closest_centroid [((0 : ℚ), (0 : ℚ))] ((1 : ℚ), (1 : ℚ))) ∧
      closest_centroid [((0 : ℚ), (0 : ℚ))] ((1 : ℚ), (1 : ℚ))
        < ([((0 : ℚ), (0 : ℚ))] : List Point).length ∧
      ∀ q : Point, closest_centroidE [] q = .error .eminValueError) :=
  ⟨by decide, closest_centroid_in_bounds _ _ (by decide)⟩

/-- C2: on a non-empty seed list, the index returned by `closest_centroid`
attains the minimum of the real (square-rooted) distances, and every earlier
index has a strictly larger distance — so when the minimum is attained at
several indices, the lowest one is returned, and a point equidistant from
seeds `i < j` goes to cluster `i`. -/
theorem closest_centroid_lowest_tie (centroids : List Point) (p : Point) (h : centroids ≠ []) :
    closest_centroid centroids p < centroids.length ∧
    (∀ j, j < centroids.length →
      (distancesR centroids p).getD (closest_centroid centroids p) 0
        ≤ (distancesR centroids p).getD j 0) ∧
    ∀ j, j < closest_centroid centroids p →
      (distancesR centroids p).getD (closest_centroid centroids p) 0
        < (distancesR centroids p).getD j 0 := by
  obtain ⟨m, hm, hcc, hmem, hle⟩ := closest_centroid_spec centroids p h
  have hilt : closest_centroid centroids p < centroids.length :=
    closest_centroid_lt_length centroids p h
  have hRlen : (distancesR centroids p).length = centroids.length := by
    rw [distancesR_eq_map, List.length_map, length_distances_sq]
  have hgetR : ∀ j, j < centroids.length →
      (distancesR centroids p).getD j 0
        = Real.sqrt (((distances_sq centroids p).getD j 0 : ℝ)) := by
    intro j hj
    have hjd : j < (distances_sq centroids p).length := by
      rw [length_distances_sq]; exact hj
    have hjm : j < ((distances_sq centroids p).map fun q : ℚ => Real.sqrt ((q : ℝ))).length := by
      rw [List.length_map]; exact hjd
    rw [distancesR_eq_map, List.getD_eq_getElem _ _ hjm, List.getElem_map,
      List.getD_eq_getElem _ _ hjd]
  have hgeti : (distances_sq centroids p).getD (closest_centroid centroids p) 0 = m := by
    rw [hcc, List.getD_eq_getElem _ _ (List.indexOf_lt_length.mpr hmem)]
    exact List.getElem_indexOf _
  have hmemD : ∀ j, j < centroids.length →
      (distances_sq centroids p).getD j 0 ∈ distances_sq centroids p := by
    intro j hj
    have hjd : j < (distances_sq centroids p).length := by
      rw [length_distances_sq]; exact hj
    rw [List.getD_eq_getElem _ _ hjd]
    exact List.getElem_mem _
  refine ⟨hilt, fun j hj => ?_, fun j hj => ?_⟩
  · rw [hgetR _ hilt, hgetR _ hj, hgeti]
    exact Real.sqrt_le_sqrt (by exact_mod_cast hle _ (hmemD j hj))
  · have hjlt : j < centroids.length := lt_trans hj hilt
    have hjd : j < (distances_sq centroids p).length := by
      rw [length_distances_sq]; exact hjlt
    rw [hgetR _ hilt, hgetR _ hjlt, hgeti]
    have hne : (distances_sq centroids p).getD j 0 ≠ m := by
      rw [List.getD_eq_getElem _ _ hjd]
      have := get_ne_of_lt_indexOf (distances_sq centroids p) m j hjd (hcc ▸ hj)
      simpa [List.get_eq_getElem] using this
    have hge : m ≤ (distances_sq centroids p).getD j 0 := hle _ (hmemD j hjlt)
    have hmnn : (0 : ℚ) ≤ m := distances_sq_nonneg centroids p m hmem
    refine Real.sqrt_lt_sqrt (by exact_mod_cast hmnn) ?_
    exact_mod_cast lt_of_le_of_ne hge (Ne.symm hne)

theorem closest_centroid_lowest_tie_witness :
    ([((0 : ℚ), (0 : ℚ)), ((4 : ℚ), (0 : ℚ))] : List Point) ≠ [] ∧
    (closest_centroid [((0 : ℚ), (0 : ℚ)), ((4 : ℚ), (0 : ℚ))] ((2 : ℚ), (0 : ℚ))
        < ([((0 : ℚ), (0 : ℚ)), ((4 : ℚ), (0 : ℚ))] : List Point).length ∧
      (∀ j, j < ([((0 : ℚ), (0 : ℚ)), ((4 : ℚ), (0 : ℚ))] : List Point).length →
        (distancesR [((0 : ℚ), (0 : ℚ)), ((4 : ℚ), (0 : ℚ))] ((2 : ℚ), (0 : ℚ))).getD
            (closest_centroid [((0 : ℚ), (0 : ℚ)), ((4 : ℚ), (0 : ℚ))] ((2 : ℚ), (0 : ℚ))) 0
          ≤ (distancesR [((0 : ℚ), (0 : ℚ)), ((4 : ℚ), (0 : ℚ))] ((2 : ℚ), (0 : ℚ))).getD j 0) ∧
      ∀ j, j < closest_centroid [((0 : ℚ), (0 : ℚ)), ((4 : ℚ), (0 : ℚ))] ((2 : ℚ), (0 : ℚ)) →
        (distancesR [((0 : ℚ), (0 : ℚ)), ((4 : ℚ), (0 : ℚ))] ((2 : ℚ), (0 : ℚ))).getD
            (closest_centroid [((0 : ℚ), (0 : ℚ)), ((4 : ℚ), (0 : ℚ))] ((2 : ℚ), (0 : ℚ))) 0
          < (distancesR [((0 : ℚ), (0 : ℚ)), ((4 : ℚ), (0 : ℚ))] ((2 : ℚ), (0 : ℚ))).getD j 0) :=
  ⟨by decide, closest_centroid_lowest_tie _ _ (by decide)⟩

/-! ### Characterization of the assignment loop of `init_centroids` -/

lemma length_assign_step (samples : List Point) (acc : List (List Point)) (p : Point) :
    (assign_step samples acc p).length = acc.length :=
  List.length_set _ _ _

lemma foldl_assign_length (samples : List Point) :
    ∀ (l : List Point) (acc : List (List Point)),
      (l.foldl (assign_step samples) acc).length = acc.length
  | [], _ => rfl
  | p :: ps, acc => by
      rw [List.foldl_cons, foldl_assign_length samples ps _, length_assign_step]

lemma foldl_assign_getElem? (samples : List Point) :
    ∀ (l : List Point) (acc : List (List Point)),
      (∀ p ∈ l, closest_centroid samples p < acc.length) →
      ∀ i, i < acc.length →
        (l.foldl (assign_step samples) acc)[i]?
          = some (acc.getD i [] ++ l.filter fun p => closest_centroid samples p == i)
  | [], acc, _, i, hi => by
      simp [List.getElem?_eq_getElem hi, List.getD_eq_getElem _ _ hi]
  | p :: ps, acc, hcl, i, hi => by
      rw [List.foldl_cons]
      have hlen : (assign_step samples acc p).length = acc.length :=
        length_assign_step samples acc p
      have hcl' : ∀ q ∈ ps, closest_centroid samples q < (assign_step samples acc p).length := by
        rw [hlen]
        exact fun q hq => hcl q (List.mem_cons_of_mem _ hq)
      have hi' : i < (assign_step samples acc p).length := by rw [hlen]; exact hi
      rw [foldl_assign_getElem? samples ps _ hcl' i hi']
      have hc : closest_centroid samples p < acc.length := hcl p (List.mem_cons_self _ _)
      by_cases hpi : closest_centroid samples p = i
      · have hstep : (assign_step samples acc p).getD i [] = acc.getD i [] ++ [p] := by
          rw [List.getD_eq_getElem _ _ hi']
          subst hpi
          simp [assign_step]
        rw [hstep, List.filter_cons_of_pos (by simpa using hpi), List.append_assoc,
          List.singleton_append]
      · have hstep : (assign_step samples acc p).getD i [] = acc.getD i [] := by
          rw [List.getD_eq_getElem _ _ hi', List.getD_eq_getElem _ _ hi]
          simp [assign_step, List.getElem_set_ne hpi]
        rw [hstep, List.filter_cons_of_neg (by simpa using hpi)]

/-- The clusters returned by `init_centroids` are exactly the filters of the
dataset by assigned index, in seed order. -/
lemma init_centroids_eq_map_filter (samples datapoints : List Point) (h : samples ≠ []) :
    init_centroids samples datapoints
      = (List.range samples.length).map
          fun i => datapoints.filter fun p => closest_centroid samples p == i := by
  have hlen0 : (samples.map fun _ => ([] : List Point)).length = samples.length :=
    List.length_map _ _
  apply List.ext_getElem?
  intro n
  by_cases hn : n < samples.length
  · have hgd : (samples.map fun _ => ([] : List Point)).getD n [] = [] := by
      rw [List.getD_eq_getElem _ _ (by rw [hlen0]; exact hn), List.getElem_map]
    rw [init_centroids,
      foldl_assign_getElem? samples datapoints _
        (fun p _ => by rw [hlen0]; exact closest_centroid_lt_length samples p h) n
        (by rw [hlen0]; exact hn),
      hgd, List.nil_append, List.getElem?_map, List.getElem?_range hn]
    rfl
  · have h1 : (init_centroids samples datapoints).length ≤ n := by
      rw [init_centroids, foldl_assign_length, hlen0]
      exact Nat.le_of_not_lt hn
    have h2 : ((List.range samples.length).map
        fun i => datapoints.filter fun p => closest_centroid samples p == i).length ≤ n := by
      rw [List.length_map, List.length_range]
      exact Nat.le_of_not_lt hn
    rw [List.getElem?_eq_none h1, List.getElem?_eq_none h2]

lemma length_init_centroids (samples datapoints : List Point) :
    (init_centroids samples datapoints).length = samples.length := by
  rw [init_centroids, foldl_assign_length, List.length_map]

lemma init_centroids_getD (samples datapoints : List Point) (h : samples ≠ [])
    (i : ℕ) (hi : i < samples.length) :
    (init_centroids samples datapoints).getD i []
      = datapoints.filter fun p => closest_centroid samples p == i := by
  rw [init_centroids_eq_map_filter samples datapoints h,
    List.getD_eq_getElem _ _ (by rw [List.length_map, List.length_range]; exact hi),
    List.getElem_map, List.getElem_range]

/-! ### C7: clusters preserve dataset order -/

/-- C7: with a valid (non-empty) seed sample, every cluster produced by
`init_centroids` is a sublist of the dataset: its points appear in the same
relative order as in the dataset, as assignment appends along the dataset
traversal. -/
theorem clusters_order_preserving (samples datapoints : List Point) (h : samples ≠ []) :
    ∀ cluster ∈ init_centroids samples datapoints, cluster.Sublist datapoints := by
  intro cluster hc
  rw [init_centroids_eq_map_filter samples datapoints h] at hc
  obtain ⟨i, -, rfl⟩ := List.mem_map.mp hc
  exact List.filter_sublist _

theorem clusters_order_preserving_witness :
    ([((0 : ℚ), (0 : ℚ))] : List Point) ≠ [] ∧
    ∀ cluster ∈ init_centroids [((0 : ℚ), (0 : ℚ))] [((1 : ℚ), (1 : ℚ)), ((2 : ℚ), (2 : ℚ))],
      cluster.Sublist [((1 : ℚ), (1 : ℚ)), ((2 : ℚ), (2 : ℚ))] :=
  ⟨by decide, clusters_order_preserving _ _ (by decide)⟩

/-! ### C1: the clusters partition the dataset -/

lemma flatten_map_update {α : Type*} (g : ℕ → List α) (j : ℕ) (a : α) :
    ∀ is : List ℕ, j ∈ is → is.Nodup →
      ((is.map fun i => if j = i then a :: g i else g i).flatten).Perm
        (a :: (is.map g).flatten)
  | [], hj, _ => absurd hj (List.not_mem_nil j)
  | i :: rest, hj, hnd => by
      by_cases hji : j = i
      · subst hji
        have hnotin : j ∉ rest := (List.nodup_cons.mp hnd).1
        have hrest : (rest.map fun i => if j = i then a :: g i else g i) = rest.map g :=
          List.map_congr_left fun x hx =>
            if_neg fun hjx => hnotin (by rw [hjx]; exact hx)
        rw [List.map_cons, if_pos rfl, hrest, List.flatten_cons, List.map_cons,
          List.flatten_cons, List.cons_append]
      · have hjrest : j ∈ rest := (List.mem_cons.mp hj).resolve_left hji
        have hndrest : rest.Nodup := (List.nodup_cons.mp hnd).2
        rw [List.map_cons, if_neg hji, List.flatten_cons, List.map_cons, List.flatten_cons]
        exact ((flatten_map_update g j a rest hjrest hndrest).append_left (g i)).trans
          List.perm_middle

lemma flatten_filter_perm (f : Point → ℕ) (k : ℕ) :
    ∀ datapoints : List Point, (∀ p ∈ datapoints, f p < k) →
      (((List.range k).map fun i => datapoints.filter fun p => f p == i).flatten).Perm
        datapoints
  | [], _ => by simp
  | p :: ps, hf => by
      have hcons : ((List.range k).map fun i => (p :: ps).filter fun q => f q == i)
          = (List.range k).map fun i =>
              if f p = i then p :: ps.filter (fun q => f q == i)
              else ps.filter fun q => f q == i := by
        refine List.map_congr_left fun i _ => ?_
        rw [List.filter_cons]
        by_cases hpi : f p = i
        · rw [if_pos (by simpa using hpi), if_pos hpi]
        · rw [if_neg (by simpa using hpi), if_neg hpi]
      rw [hcons]
      exact (flatten_map_update (fun i => ps.filter fun q => f q == i) (f p) p
          (List.range k) (List.mem_range.mpr (hf p (List.mem_cons_self _ _)))
          (List.nodup_range k)).trans
        ((flatten_filter_perm f k ps fun q hq => hf q (List.mem_cons_of_mem _ hq)).cons p)

/-- C1: for a valid cluster count and a seed sample drawn from the dataset,
the clusters of `init_centroids` partition the dataset exactly: their
concatenation is a permutation of the dataset (no point lost or duplicated,
multiset union equal), and every dataset point lies in exactly one cluster. -/
theorem init_centroids_partition (samples datapoints : List Point) (k : ℕ)
    (hk1 : 1 ≤ k) (hk2 : k ≤ datapoints.length) (hlen : samples.length = k)
    (hsub : ∀ s ∈ samples, s ∈ datapoints) :
    (init_centroids samples datapoints).flatten.Perm datapoints ∧
    ∀ p ∈ datapoints, ∃! i : ℕ, i < (init_centroids samples datapoints).length ∧
      p ∈ (init_centroids samples datapoints).getD i [] := by
  have hne : samples ≠ [] := by
    intro hnil
    subst hnil
    simp at hlen
    omega
  constructor
  · rw [init_centroids_eq_map_filter samples datapoints hne]
    exact flatten_filter_perm (closest_centroid samples) samples.length datapoints
      fun p _ => closest_centroid_lt_length samples p hne
  · intro p hp
    have hc : closest_centroid samples p < samples.length :=
      closest_centroid_lt_length samples p hne
    refine ⟨closest_centroid samples p, ⟨?_, ?_⟩, ?_⟩
    · rw [length_init_centroids]
      exact hc
    · rw [init_centroids_getD samples datapoints hne _ hc]
      exact List.mem_filter.mpr ⟨hp, by simp⟩
    · intro j hj
      obtain ⟨hjlt, hjmem⟩ := hj
      rw [length_init_centroids] at hjlt
      rw [init_centroids_getD samples datapoints hne _ hjlt] at hjmem
      have h2 : closest_centroid samples p = j := by
        simpa using (List.mem_filter.mp hjmem).2
      exact h2.symm

theorem init_centroids_partition_witness :
    (1 ≤ 1 ∧ 1 ≤ ([((0 : ℚ), (0 : ℚ)), ((3 : ℚ), (0 : ℚ))] : List Point).length ∧
      ([((0 : ℚ), (0 : ℚ))] : List Point).length = 1 ∧
      ∀ s ∈ ([((0 : ℚ), (0 : ℚ))] : List Point),
        s ∈ ([((0 : ℚ), (0 : ℚ)), ((3 : ℚ), (0 : ℚ))] : List Point)) ∧
    ((init_centroids [((0 : ℚ), (0 : ℚ))]
        [((0 : ℚ), (0 : ℚ)), ((3 : ℚ), (0 : ℚ))]).flatten.Perm
      [((0 : ℚ), (0 : ℚ)), ((3 : ℚ), (0 : ℚ))] ∧
    ∀ p ∈ ([((0 : ℚ), (0 : ℚ)), ((3 : ℚ), (0 : ℚ))] : List Point),
      ∃! i : ℕ, i < (init_centroids [((0 : ℚ), (0 : ℚ))]
          [((0 : ℚ), (0 : ℚ)), ((3 : ℚ), (0 : ℚ))]).length ∧
        p ∈ (init_centroids [((0 : ℚ), (0 : ℚ))]
          [((0 : ℚ), (0 : ℚ)), ((3 : ℚ), (0 : ℚ))]).getD i []) :=
  ⟨⟨le_refl 1, by decide, by decide, by decide⟩,
    init_centroids_partition _ _ 1 (le_refl 1) (by decide) (by decide) (by decide)⟩

/-! ### C6: with k = n distinct points, every cluster is a singleton -/

/-- A point of the seed list is at squared distance `0` from itself, so the
assignment picks the first index of distance `0`. -/
lemma closest_centroid_of_mem (samples : List Point) (p : Point) (hp : p ∈ samples) :
    closest_centroid samples p = (distances_sq samples p).indexOf 0 := by
  have hzero : (0 : ℚ) ∈ distances_sq samples p := by
    refine List.mem_map.mpr ⟨p, hp, ?_⟩
    simp [euclidean_sq]
  have hmin : (distances_sq samples p).min? = some 0 :=
    minQ_eq_some_iff.mpr ⟨hzero, distances_sq_nonneg samples p⟩
  simp [closest_centroid, closest_centroidE, hmin]

/-- If position `n` is the unique position of a zero entry, the first index
of `0` is `n`. -/
lemma indexOf_zero_eq_of_unique (l : List ℚ) (n : ℕ) (hn : n < l.length)
    (h : ∀ j (hj : j < l.length), (l.get ⟨j, hj⟩ = 0 ↔ j = n)) :
    l.indexOf 0 = n := by
  have h0 : l.get ⟨n, hn⟩ = 0 := (h n hn).mpr rfl
  have hmem : (0 : ℚ) ∈ l := h0 ▸ List.get_mem l n hn
  have hlt : l.indexOf 0 < l.length := List.indexOf_lt_length.mpr hmem
  exact (h _ hlt).mp (List.indexOf_get hlt)

lemma filter_beq_self_of_nodup {α : Type*} [BEq α] [LawfulBEq α] :
    ∀ l : List α, l.Nodup → ∀ a ∈ l, l.filter (fun x => x == a) = [a]
  | [], _, a, ha => absurd ha (List.not_mem_nil a)
  | b :: l, hnd, a, ha => by
      obtain ⟨hbnotin, hlnd⟩ := List.nodup_cons.mp hnd
      rcases List.mem_cons.mp ha with rfl | hal
      · rw [List.filter_cons_of_pos (by simp)]
        have hnil : l.filter (fun x => x == a) = [] := by
          rw [List.filter_eq_nil_iff]
          intro x hx hxa
          exact hbnotin (by rwa [(by simpa using hxa : x = a)] at hx)
        rw [hnil]
      · have hba : b ≠ a := fun hb => hbnotin (hb ▸ hal)
        rw [List.filter_cons_of_neg (by simpa using hba),
          filter_beq_self_of_nodup l hlnd a hal]

/-- C6: when the seed sample is a permutation of a duplicate-free dataset
(the `k = n` boundary), every cluster is the singleton of its own seed:
each point is at distance `0` from itself and strictly positive distance
from every other seed. -/
theorem k_eq_n_singleton_clusters (samples datapoints : List Point)
    (hperm : samples.Perm datapoints) (hnd : datapoints.Nodup)
    (hne : datapoints ≠ []) :
    init_centroids samples datapoints = samples.map fun s => [s] := by
  have hsne : samples ≠ [] := by
    intro hnil
    subst hnil
    exact hne hperm.nil_eq.symm
  have hsnd : samples.Nodup := hperm.nodup_iff.mpr hnd
  rw [init_centroids_eq_map_filter samples datapoints hsne]
  apply List.ext_getElem?
  intro n
  by_cases hn : n < samples.length
  · rw [List.getElem?_map, List.getElem?_map, List.getElem?_range hn,
      List.getElem?_eq_getElem hn]
    have hmem : samples.get ⟨n, hn⟩ ∈ datapoints :=
      hperm.mem_iff.mp (List.get_mem samples n hn)
    have key : ∀ p ∈ datapoints,
        (closest_centroid samples p == n) = (p == samples.get ⟨n, hn⟩) := by
      intro p hp
      have hps : p ∈ samples := hperm.symm.mem_iff.mp hp
      have hnd' : n < (distances_sq samples p).length := by
        rw [length_distances_sq]; exact hn
      rw [closest_centroid_of_mem samples p hps, Bool.eq_iff_iff]
      simp only [beq_iff_eq, List.get_eq_getElem]
      constructor
      · intro hidx
        have hmem0 : (0 : ℚ) ∈ distances_sq samples p := by
          refine List.mem_map.mpr ⟨p, hps, ?_⟩
          simp [euclidean_sq]
        have h1 : (distances_sq samples p)[(distances_sq samples p).indexOf 0]? = some 0 :=
          List.getElem?_indexOf hmem0
        rw [hidx, List.getElem?_eq_getElem hnd'] at h1
        have h2 : (distances_sq samples p)[n] = 0 := Option.some_inj.mp h1
        simp only [distances_sq, List.getElem_map] at h2
        obtain ⟨h3, h4⟩ := (euclidean_sq_eq_zero_iff _ _ _ _).mp h2
        exact (Prod.ext h3 h4).symm
      · intro hps2
        apply indexOf_zero_eq_of_unique _ n hnd'
        intro j hj
        have hj' : j < samples.length := by rw [length_distances_sq] at hj; exact hj
        simp only [distances_sq, List.get_eq_getElem, List.getElem_map]
        rw [euclidean_sq_eq_zero_iff]
        constructor
        · rintro ⟨h1, h2⟩
          have hsj : samples[j] = samples[n] := by
            rw [← hps2]
            exact Prod.ext h1 h2
          exact (hsnd.getElem_inj_iff).mp hsj
        · rintro rfl
          exact ⟨(congrArg Prod.fst hps2).symm, (congrArg Prod.snd hps2).symm⟩
    show some (datapoints.filter fun p => closest_centroid samples p == n)
        = some [samples[n]]
    rw [List.filter_congr key,
      filter_beq_self_of_nodup datapoints hnd (samples.get ⟨n, hn⟩) hmem]
    rfl
  · have h1 : ((List.range samples.length).map
        fun i => datapoints.filter fun p => closest_centroid samples p == i).length ≤ n := by
      rw [List.length_map, List.length_range]
      exact Nat.le_of_not_lt hn
    have h2 : (samples.map fun s => [s]).length ≤ n := by
      rw [List.length_map]
      exact Nat.le_of_not_lt hn
    rw [List.getElem?_eq_none h1, List.getElem?_eq_none h2]

theorem k_eq_n_singleton_clusters_witness :
    (([((3 : ℚ), (4 : ℚ)), ((1 : ℚ), (2 : ℚ))] : List Point).Perm
        [((1 : ℚ), (2 : ℚ)), ((3 : ℚ), (4 : ℚ))] ∧
      ([((1 : ℚ), (2 : ℚ)), ((3 : ℚ), (4 : ℚ))] : List Point).Nodup ∧
      ([((1 : ℚ), (2 : ℚ)), ((3 : ℚ), (4 : ℚ))] : List Point) ≠ []) ∧
    init_centroids [((3 : ℚ), (4 : ℚ)), ((1 : ℚ), (2 : ℚ))]
        [((1 : ℚ), (2 : ℚ)), ((3 : ℚ), (4 : ℚ))]
      = ([((3 : ℚ), (4 : ℚ)), ((1 : ℚ), (2 : ℚ))] : List Point).map fun s => [s] :=
  ⟨⟨by decide, by decide, by decide⟩,
    k_eq_n_singleton_clusters _ _ (by decide) (by decide) (by decide)⟩

/-! ### C3: invalid cluster counts -/

/-- C3: the program never raises a dedicated `InvalidClusterCount`-style
condition.  For `k > n` the sampling step raises an uncontrolled
`ValueError`; for `k = 0` on a non-empty dataset the sample is empty and the
first `closest_centroid` call crashes with the `ValueError` of `np.amin` on
an empty sequence; and for `k = 0` on an empty dataset the call silently
returns an empty cluster list. -/
theorem invalid_k_uncontrolled :
    init_centroidsE [((1 : ℚ), (2 : ℚ))] 2 [] = .error .sampleValueError ∧
    init_centroidsE [((1 : ℚ), (2 : ℚ))] 0 [] = .error .eminValueError ∧
    init_centroidsE ([] : List Point) 0 [] = .ok [] :=
  ⟨rfl, rfl, rfl⟩

/-! ### C4 and C5: the cluster summary -/

lemma mean_data_eq_of_ne_nil (cluster : List Point) (h : cluster ≠ []) :
    mean_data cluster
      = some ((cluster.map Prod.fst).sum / cluster.length,
          (cluster.map Prod.snd).sum / cluster.length) := by
  have hlen : cluster.length ≠ 0 := fun h0 => h (List.length_eq_zero.mp h0)
  have hx : np_mean (cluster.map Prod.fst)
      = some ((cluster.map Prod.fst).sum / cluster.length) := by
    rw [np_mean, if_neg (by rw [List.length_map]; exact hlen), List.length_map]
  have hy : np_mean (cluster.map Prod.snd)
      = some ((cluster.map Prod.snd).sum / cluster.length) := by
    rw [np_mean, if_neg (by rw [List.length_map]; exact hlen), List.length_map]
  simp only [mean_data, hx, hy]

/-- C4: requesting the summary of an empty cluster raises no error at all:
`np.mean([])` yields NaN (modelled by `none`), which the program prints —
there is no `EmptyClusterError` anywhere in the code.  For non-empty
clusters a numeric summary is indeed produced without error. -/
theorem mean_data_empty_nan (cluster : List Point) (h : cluster ≠ []) :
    mean_data ([] : List Point) = none ∧ (mean_data cluster).isSome = true := by
  refine ⟨rfl, ?_⟩
  rw [mean_data_eq_of_ne_nil cluster h]
  rfl

theorem mean_data_empty_nan_witness :
    ([((1 : ℚ), (2 : ℚ))] : List Point) ≠ [] ∧
    (mean_data ([] : List Point) = none ∧
      (mean_data [((1 : ℚ), (2 : ℚ))]).isSome = true) :=
  ⟨by decide, mean_data_empty_nan _ (by decide)⟩

/-- C5: for a non-empty cluster the summary is the exact pair of coordinate
means, reported rounded to two decimal digits, and on the cluster
`[(10, 50), (20, 70)]` it equals `(15, 60)`. -/
theorem mean_data_correct (cluster : List Point) (h : cluster ≠ []) :
    mean_data cluster
      = some ((cluster.map Prod.fst).sum / cluster.length,
          (cluster.map Prod.snd).sum / cluster.length) ∧
    mean_data_report cluster
      = some (np_round2 ((cluster.map Prod.fst).sum / cluster.length),
          np_round2 ((cluster.map Prod.snd).sum / cluster.length)) ∧
    mean_data [((10 : ℚ), (50 : ℚ)), ((20 : ℚ), (70 : ℚ))] = some ((15 : ℚ), (60 : ℚ)) ∧
    mean_data_report [((10 : ℚ), (50 : ℚ)), ((20 : ℚ), (70 : ℚ))]
      = some ((15 : ℚ), (60 : ℚ)) := by
  have h15 : mean_data [((10 : ℚ), (50 : ℚ)), ((20 : ℚ), (70 : ℚ))]
      = some ((15 : ℚ), (60 : ℚ)) := by
    rw [mean_data_eq_of_ne_nil _ (by simp)]
    norm_num
  have hrep : mean_data_report [((10 : ℚ), (50 : ℚ)), ((20 : ℚ), (70 : ℚ))]
      = some ((15 : ℚ), (60 : ℚ)) := by
    rw [mean_data_report, h15]
    have r1 : np_round2 (15 : ℚ) = 15 := by
      rw [np_round2]
      norm_num [round_half_even, Int.floor_ofNat]
    have r2 : np_round2 (60 : ℚ) = 60 := by
      rw [np_round2]
      norm_num [round_half_even, Int.floor_ofNat]
    simp [r1, r2]
  refine ⟨mean_data_eq_of_ne_nil cluster h, ?_, h15, hrep⟩
  rw [mean_data_report, mean_data_eq_of_ne_nil cluster h]
  rfl

theorem mean_data_correct_witness :
    ([((10 : ℚ), (50 : ℚ)), ((20 : ℚ), (70 : ℚ))] : List Point) ≠ [] ∧
    (mean_data [((10 : ℚ), (50 : ℚ)), ((20 : ℚ), (70 : ℚ))]
        = some ((([((10 : ℚ), (50 : ℚ)), ((20 : ℚ), (70 : ℚ))] : List Point).map Prod.fst).sum
              / ([((10 : ℚ), (50 : ℚ)), ((20 : ℚ), (70 : ℚ))] : List Point).length,
            (([((10 : ℚ), (50 : ℚ)), ((20 : ℚ), (70 : ℚ))] : List Point).map Prod.snd).sum
              / ([((10 : ℚ), (50 : ℚ)), ((20 : ℚ), (70 : ℚ))] : List Point).length) ∧
      mean_data_report [((10 : ℚ), (50 : ℚ)), ((20 : ℚ), (70 : ℚ))]
        = some (np_round2 ((([((10 : ℚ), (50 : ℚ)), ((20 : ℚ), (70 : ℚ))] : List Point).map
                Prod.fst).sum / ([((10 : ℚ), (50 : ℚ)), ((20 : ℚ), (70 : ℚ))] : List Point).length),
            np_round2 ((([((10 : ℚ), (50 : ℚ)), ((20 : ℚ), (70 : ℚ))] : List Point).map
                Prod.snd).sum / ([((10 : ℚ), (50 : ℚ)), ((20 : ℚ), (70 : ℚ))] : List Point).length)) ∧
      mean_data [((10 : ℚ), (50 : ℚ)), ((20 : ℚ), (70 : ℚ))] = some ((15 : ℚ), (60 : ℚ)) ∧
      mean_data_report [((10 : ℚ), (50 : ℚ)), ((20 : ℚ), (70 : ℚ))]
        = some ((15 : ℚ), (60 : ℚ))) :=
  ⟨by decide, mean_data_correct _ (by decide)⟩

/-! ### C8: malformed input rows crash `read_csv` -/

/-- C8: a malformed or missing numeric field raises an uncaught exception
(`ValueError` from `float(...)` or `IndexError` from the row lookup) that
aborts `read_csv` entirely — even rows already parsed are lost rather than a
partial dataset being returned; only in the absence of bad rows does the
call return the dictionary. -/
theorem read_csv_malformed_crash :
    read_csv [("Algeria", [some (1 : ℚ), some (2 : ℚ)]), ("Bad", [none, some (3 : ℚ)])]
        = .error .floatValueError ∧
    read_csv [("Algeria", [some (1 : ℚ), some (2 : ℚ)]), ("Short", [some (4 : ℚ)])]
        = .error .rowIndexError ∧
    read_csv [("Algeria", [some (1 : ℚ), some (2 : ℚ)])]
        = .ok [("Algeria", ((1 : ℚ), (2 : ℚ)))] :=
  ⟨rfl, rfl, rfl⟩

/-! ### C10: country lookup by coordinate value -/

/-- C10: `get_country` lists exactly the countries whose coordinate pair
value-equals some point of the cluster, in dictionary iteration order
(a sublist of the dictionary's key order), and reports their count; with
two countries sharing coordinates both are listed, and the count then
differs from the cluster's length. -/
theorem get_country_spec (cluster : List Point) (data : List (String × Point)) :
    (get_country cluster data).2 = (get_country cluster data).1.length ∧
    ((get_country cluster data).1).Sublist (data.map Prod.fst) ∧
    (∀ c : String, c ∈ (get_country cluster data).1 ↔
      ∃ q : Point, (c, q) ∈ data ∧ q ∈ cluster) ∧
    get_country [((1 : ℚ), (1 : ℚ))] [("A", ((1 : ℚ), (1 : ℚ))), ("B", ((1 : ℚ), (1 : ℚ)))]
        = (["A", "B"], 2) ∧
    (get_country [((1 : ℚ), (1 : ℚ))]
        [("A", ((1 : ℚ), (1 : ℚ))), ("B", ((1 : ℚ), (1 : ℚ)))]).2
      ≠ ([((1 : ℚ), (1 : ℚ))] : List Point).length := by
  refine ⟨rfl, (List.filter_sublist data).map Prod.fst, ?_, by decide, by decide⟩
  intro c
  constructor
  · intro hc
    obtain ⟨kv, hkv, rfl⟩ := List.mem_map.mp hc
    obtain ⟨hkvd, hkvc⟩ := List.mem_filter.mp hkv
    refine ⟨kv.2, hkvd, ?_⟩
    exact List.elem_iff.mp hkvc
  · rintro ⟨q, hqd, hqc⟩
    refine List.mem_map.mpr ⟨(c, q), ?_, rfl⟩
    exact List.mem_filter.mpr ⟨hqd, List.elem_iff.mpr hqc⟩

end KMeans
